import Mathlib

/-!
Shallow embedding of the CMPM-121-D3 grid collection/merge game.

The repository's final variant (the persisted "flyweight + memento" game,
`src/unnamed/part_000`, second program; its interaction logic coincides with
`src/src/main.ts`) is embedded here:

* `key`, `latLngToRealCell`, `latLngToCell`, `cellToBounds` — coordinate math;
* `mapGet?` / `mapSet` — the JS `Map<string, number | null>` used as
  `worldState` (insertion order preserved, `set` replaces in place);
* `getCellToken` — flyweight lookup: override if present, else the
  deterministic generator (`luck`, an external hash kept as a parameter);
* `isCellNearby`, `checkWin`, `handleCellClick`, `moveStep` — the
  interaction engine;
* `loadGame` with a small executable model of `JSON.parse`.

JS numbers appearing here are either integers (cell indices, token values,
modelled as `Int`/`Nat`) or decimal literals and their arithmetic
(coordinates, thresholds, modelled as `ℚ`, exact).
-/

set_option maxRecDepth 10000

/-- Decimal digit character, mirroring how JS renders one digit of a number. -/
def digitChar (d : Nat) : Char := Char.ofNat (48 + d)

/-- Fuelled digit-string worker (structural recursion on the fuel so that
the kernel can evaluate it); with fuel above the number it computes the
decimal digits, most significant first. -/
def natDigitsF : Nat → Nat → List Char
  | 0, _ => []
  | fuel + 1, n =>
    if n < 10 then [digitChar n]
    else natDigitsF fuel (n / 10) ++ [digitChar (n % 10)]

/-- Decimal digit string of a natural number, most significant digit first:
the digits JS template interpolation produces for a nonnegative integer. -/
def natDigits (n : Nat) : List Char := natDigitsF (n + 1) n

/-- Decimal value of a digit string (left fold, base 10). -/
def valDigits (cs : List Char) : Nat :=
  cs.foldl (fun a c => 10 * a + (c.toNat - 48)) 0

/-- Decimal rendering of an integer as produced by JS string interpolation:
a minus sign followed by the digits for negative numbers, plain digits
otherwise. -/
def intRepr (i : Int) : List Char :=
  if i < 0 then Char.ofNat 45 :: natDigits (-i).toNat else natDigits i.toNat

/-- Source `key(i, j)`: the canonical store key, the string i,j. -/
def key (i j : Int) : String := String.mk (intRepr i ++ Char.ofNat 44 :: intRepr j)

/-- The `worldState` map: JS `Map<string, number | null>` as an ordered
association list (one entry per key). -/
abbrev CellMap := List (String × Option Nat)

/-- JS `Map.get` combined with `Map.has`: first matching entry, if any. -/
def mapGet? (m : CellMap) (k : String) : Option (Option Nat) :=
  match m with
  | [] => none
  | (k1, v) :: rest => if k1 = k then some v else mapGet? rest k

/-- JS `Map.set`: replace the existing entry for the key in place, else
append a new entry. -/
def mapSet (m : CellMap) (k : String) (v : Option Nat) : CellMap :=
  match m with
  | [] => [(k, v)]
  | (k1, v1) :: rest => if k1 = k then (k, v) :: rest else (k1, v1) :: mapSet rest k v

/-- JS `Map.has`. -/
def mapHas (m : CellMap) (k : String) : Bool := (mapGet? m k).isSome

/-- Source `TILE_DEGREES = 0.0001`. -/
def TILE_DEGREES : ℚ := 1 / 10000

/-- Source `INTERACT_RANGE = 3` (a bound on the absolute per-axis cell
difference, so a natural number here). -/
def INTERACT_RANGE : Nat := 3

/-- Latitude of `VISUAL_ORIGIN` / `CLASSROOM_LATLNG` (36.997936938057016),
as an exact rational. -/
def VISUAL_ORIGIN_LAT : ℚ := 36997936938057016 / 1000000000000000

/-- Longitude of `VISUAL_ORIGIN` / `CLASSROOM_LATLNG` (-122.05703507501151),
as an exact rational. -/
def VISUAL_ORIGIN_LNG : ℚ := -12205703507501151 / 100000000000000

/-- The two movement modes of the movement facade. -/
inductive MoveMode
  | wasd
  | geo
deriving DecidableEq, Repr

/-- The game's mutable core state: `worldState`, `heldToken`,
`playerLatLng`, `movementMode`. -/
structure GameState where
  world : CellMap
  held : Option Nat
  playerLat : ℚ
  playerLng : ℚ
  mode : MoveMode
deriving DecidableEq, Repr

/-- Source `latLngToRealCell`: floor-divide the offset from
`GRID_ORIGIN = (0, 0)` by the tile size. -/
def latLngToRealCell (lat lng : ℚ) : Int × Int :=
  (⌊(lat - 0) / TILE_DEGREES⌋, ⌊(lng - 0) / TILE_DEGREES⌋)

/-- Source `getCellToken`: return the recorded override when the store has
the key, else derive the value from the deterministic generator `luck`
with the literal thresholds 0.15 and 0.075. -/
def getCellToken (luck : String → ℚ) (w : CellMap) (i j : Int) : Option Nat :=
  match mapGet? w (key i j) with
  | some v => v
  | none =>
    let roll := luck (key i j)
    if roll < 15 / 100 then (if roll < 75 / 1000 then some 1 else some 2) else none

/-- Source `isCellNearby`: both per-axis absolute differences from the
player's current cell are at most `INTERACT_RANGE`; recomputed from the
state's player position at each call. -/
def isCellNearby (s : GameState) (i j : Int) : Bool :=
  decide (((latLngToRealCell s.playerLat s.playerLng).1 - i).natAbs ≤ INTERACT_RANGE) &&
  decide (((latLngToRealCell s.playerLat s.playerLng).2 - j).natAbs ≤ INTERACT_RANGE)

/-- The text of the win alert for a held value. -/
def checkWinMsg (v : Nat) : String :=
  "You win! You created a token of value " ++ toString v ++ "."

/-- Source `checkWin`: alert exactly when a token is held and its value is
at least 50; the emitted alerts are collected as an output list. -/
def checkWin (held : Option Nat) : List String :=
  match held with
  | some v => if 50 ≤ v then [checkWinMsg v] else []
  | none => []

/-- Source `handleCellClick` (the `attemptInteraction` event): range check,
then the place / pickup / merge branches in source order, each mutating
`worldState` and `heldToken` and running `updateInventoryUI` (which calls
`checkWin` on the new held value); the emitted alerts are returned
alongside the new state. The four cases of the match are exactly the
guarded if-chain of the source. -/
def handleCellClick (luck : String → ℚ) (s : GameState) (i j : Int) :
    GameState × List String :=
  if isCellNearby s i j then
    match getCellToken luck s.world i j, s.held with
    | none, some h =>
      ({ s with world := mapSet s.world (key i j) (some h), held := none },
       checkWin none)
    | some t, none =>
      ({ s with world := mapSet s.world (key i j) none, held := some t },
       checkWin (some t))
    | some t, some h =>
      if t = h then
        ({ s with world := mapSet s.world (key i j) none, held := some (h * 2) },
         checkWin (some (h * 2)))
      else (s, [])
    | none, none => (s, [])
  else (s, [])

/-- The four WASD movement keys. -/
inductive MoveKey
  | w
  | a
  | s
  | d
deriving DecidableEq, Repr

/-- Source `WasdMovement.handler`: one discrete step of one tile. -/
def moveStep (st : GameState) (k : MoveKey) : GameState :=
  match k with
  | .w => { st with playerLat := st.playerLat + TILE_DEGREES }
  | .s => { st with playerLat := st.playerLat - TILE_DEGREES }
  | .a => { st with playerLng := st.playerLng - TILE_DEGREES }
  | .d => { st with playerLng := st.playerLng + TILE_DEGREES }

/-- External events entering the core state machine: a cell click, a WASD
step, a geolocation update, a grid redraw, and the movement-mode toggle. -/
inductive Event
  | click (i j : Int)
  | move (k : MoveKey)
  | locate (lat lng : ℚ)
  | redraw
  | toggleMode

/-- One event step. `redrawGrid` of the persisted variant only reads
`worldState` (through `getCellToken`) and mutates map layers, so its core
state effect is the identity; `toggleMovementMode` flips the mode; the two
movement sources update only the player position. -/
def stepEv (luck : String → ℚ) (s : GameState) : Event → GameState
  | .click i j => (handleCellClick luck s i j).1
  | .move k => moveStep s k
  | .locate lat lng => { s with playerLat := lat, playerLng := lng }
  | .redraw => s
  | .toggleMode => { s with mode := if s.mode = .wasd then .geo else .wasd }

/-- Fold a list of events over the state. -/
def runEvents (luck : String → ℚ) (s : GameState) (evs : List Event) : GameState :=
  evs.foldl (stepEv luck) s

/-- The defaults: empty override store, no held token, player at the visual
origin, WASD movement. This is the state on first load. -/
def initialState : GameState :=
  { world := []
    held := none
    playerLat := VISUAL_ORIGIN_LAT
    playerLng := VISUAL_ORIGIN_LNG
    mode := .wasd }

/-- Source `newGame`: removes every persisted field and reloads, so the core
restarts from the defaults (in particular the whole override store is
cleared at once). -/
def newGame (_ : GameState) : GameState := initialState

/-- JSON values, the result type of the `JSON.parse` model. -/
inductive Json where
  | jnull
  | jbool (b : Bool)
  | jnum (n : Int)
  | jstr (s : String)
  | jarr (elems : List Json)
  | jobj (fields : List (String × Json))

/-- The double-quote character. -/
def quoteChar : Char := Char.ofNat 34

/-- The opening-brace character. -/
def lbraceChar : Char := Char.ofNat 123

/-- The closing-brace character. -/
def rbraceChar : Char := Char.ofNat 125

/-- Whether a character is a decimal digit. -/
def isDigitCh (c : Char) : Bool := decide (48 ≤ c.toNat) && decide (c.toNat ≤ 57)

/-- Scan a string body up to the closing quote (escape-free subset);
returns the body and the rest after the quote. -/
def takeStr : List Char → Option (List Char × List Char)
  | [] => none
  | c :: rest =>
    if c = quoteChar then some ([], rest)
    else
      match takeStr rest with
      | some (s1, r) => some (c :: s1, r)
      | none => none

/-- Split off the maximal leading run of digits. -/
def takeDigits : List Char → (List Char × List Char)
  | [] => ([], [])
  | c :: rest =>
    if isDigitCh c then
      let p := takeDigits rest
      (c :: p.1, p.2)
    else ([], c :: rest)

/-- The three entry points of the recursive-descent parser: one value, the
items of a nonempty array, the members of a nonempty object. -/
inductive PTag
  | val
  | items
  | members

/-- Executable model of `JSON.parse` (fuel-bounded recursive descent over
the whitespace-free subset the game persists: null, booleans, integers,
escape-free strings, arrays, objects; structural recursion on the fuel so
the kernel can evaluate it). `none` models the `SyntaxError` the real
parser throws. In items mode the result is wrapped as `Json.jarr`, in
members mode as `Json.jobj`. -/
def parseF : Nat → PTag → List Char → Option (Json × List Char)
  | 0, _, _ => none
  | fuel + 1, .val, cs =>
    match cs with
    | [] => none
    | 'n' :: 'u' :: 'l' :: 'l' :: r => some (.jnull, r)
    | 't' :: 'r' :: 'u' :: 'e' :: r => some (.jbool true, r)
    | 'f' :: 'a' :: 'l' :: 's' :: 'e' :: r => some (.jbool false, r)
    | c :: rest =>
      if c = quoteChar then
        match takeStr rest with
        | some (s1, r) => some (.jstr (String.mk s1), r)
        | none => none
      else if c = '-' then
        match takeDigits rest with
        | ([], _) => none
        | (ds, r) => some (.jnum (-(valDigits ds : Int)), r)
      else if isDigitCh c then
        match takeDigits (c :: rest) with
        | (ds, r) => some (.jnum (valDigits ds : Int), r)
      else if c = '[' then
        match rest with
        | ']' :: r => some (.jarr [], r)
        | _ =>
          match parseF fuel .items rest with
          | some (.jarr xs, r) => some (.jarr xs, r)
          | _ => none
      else if c = lbraceChar then
        match rest with
        | [] => none
        | r1 :: r =>
          if r1 = rbraceChar then some (.jobj [], r)
          else
            match parseF fuel .members (r1 :: r) with
            | some (.jobj fs, r2) => some (.jobj fs, r2)
            | _ => none
      else none
  | fuel + 1, .items, cs =>
    match parseF fuel .val cs with
    | some (v, r) =>
      match r with
      | ',' :: r2 =>
        match parseF fuel .items r2 with
        | some (.jarr xs, r3) => some (.jarr (v :: xs), r3)
        | _ => none
      | ']' :: r2 => some (.jarr [v], r2)
      | _ => none
    | none => none
  | fuel + 1, .members, cs =>
    match cs with
    | [] => none
    | c :: rest =>
      if c = quoteChar then
        match takeStr rest with
        | none => none
        | some (k1, r) =>
          match r with
          | ':' :: r2 =>
            match parseF fuel .val r2 with
            | some (v, r3) =>
              match r3 with
              | ',' :: r4 =>
                match parseF fuel .members r4 with
                | some (.jobj fs, r5) => some (.jobj ((String.mk k1, v) :: fs), r5)
                | _ => none
              | r5 :: r6 =>
                if r5 = rbraceChar then some (.jobj [(String.mk k1, v)], r6) else none
              | [] => none
            | none => none
          | _ => none
      else none

/-- Model of `JSON.parse`: parse one value consuming the whole input, with
fuel amply larger than the input. -/
def jsonParse (s : String) : Option Json :=
  match parseF (2 * s.data.length + 2) .val s.data with
  | some (v, []) => some v
  | _ => none

/-- Source localStorage key for the override store. -/
def LS_WORLD : String := "d3_world_state"

/-- Source localStorage key for the player position. -/
def LS_PLAYER : String := "d3_player_position"

/-- Source localStorage key for the held token. -/
def LS_HELD : String := "d3_held_token"

/-- Source localStorage key for the movement mode. -/
def LS_MODE : String := "d3_movement_mode"

/-- The outcome of `loadGame`: the parsed persisted fields as the core sees
them (the player and held fields keep their parsed JSON, their geometric
interpretation being the map library's concern). -/
structure LoadedState where
  worldEntries : List (String × Json)
  playerJson : Option Json
  heldJson : Json
  mode : MoveMode

/-- Model of `Object.entries` as applied to a parsed JSON value:
entries of an object; `Object.entries(null)` throws; the entries of other
primitives contribute nothing to the store (index entries of strings and
arrays are abstracted away, the game never persists those shapes). -/
def entriesOfJson : Json → Except Unit (List (String × Json))
  | .jobj fs => .ok fs
  | .jnull => .error ()
  | _ => .ok []

/-- One field of `loadGame`: absent or empty (JS falsy) means skip, else
`JSON.parse`, whose failure is a thrown exception (`Except.error`). -/
def loadField (store : String → Option String) (k : String) :
    Except Unit (Option Json) :=
  match store k with
  | none => .ok none
  | some s1 =>
    if s1 = "" then .ok none
    else
      match jsonParse s1 with
      | none => .error ()
      | some j => .ok (some j)

/-- The movement-mode field of `loadGame`: the source keeps the stored
string only when it is geo or wasd, so anything else collapses to the
wasd default. -/
def loadMode (store : String → Option String) : MoveMode :=
  match store LS_MODE with
  | some s1 => if s1 = "geo" then MoveMode.geo else MoveMode.wasd
  | none => MoveMode.wasd

/-- Source `loadGame`: each of the four persisted fields is read guarded by
JS truthiness; a present field is fed to `JSON.parse` (no try/catch in the
source, so a parse failure propagates as a thrown exception, the error
case); absent fields keep the defaults. The world object additionally goes
through `Object.entries`. -/
def loadGame (store : String → Option String) : Except Unit LoadedState :=
  match loadField store LS_WORLD with
  | .error e => .error e
  | .ok wj =>
    match (match wj with
           | none => Except.ok ([] : List (String × Json))
           | some j => entriesOfJson j) with
    | .error e => .error e
    | .ok w =>
      match loadField store LS_PLAYER with
      | .error e => .error e
      | .ok p =>
        match loadField store LS_HELD with
        | .error e => .error e
        | .ok h => .ok ⟨w, p, h.getD Json.jnull, loadMode store⟩

/-- Source `latLngToCell` (first variant; `latLngToVisualCell` is the same
map with the latitude axis flipped): floor-divide the offset from the
classroom origin by the tile size. -/
def latLngToCell (lat lng : ℚ) : Int × Int :=
  (⌊(lat - VISUAL_ORIGIN_LAT) / TILE_DEGREES⌋, ⌊(lng - VISUAL_ORIGIN_LNG) / TILE_DEGREES⌋)

/-- Source `cellToBounds`: the rectangle of cell (i, j), as its south-west
and north-east corners. -/
def cellToBounds (i j : Int) : (ℚ × ℚ) × (ℚ × ℚ) :=
  ((VISUAL_ORIGIN_LAT + i * TILE_DEGREES, VISUAL_ORIGIN_LNG + j * TILE_DEGREES),
   (VISUAL_ORIGIN_LAT + (i + 1) * TILE_DEGREES, VISUAL_ORIGIN_LNG + (j + 1) * TILE_DEGREES))

/-- The half-open cell-sized square of cell (i, j): the canonical region a
partition assigns to the cell. -/
def inCellRegion (lat lng : ℚ) (i j : Int) : Prop :=
  VISUAL_ORIGIN_LAT + i * TILE_DEGREES ≤ lat ∧
  lat < VISUAL_ORIGIN_LAT + (i + 1) * TILE_DEGREES ∧
  VISUAL_ORIGIN_LNG + j * TILE_DEGREES ≤ lng ∧
  lng < VISUAL_ORIGIN_LNG + (j + 1) * TILE_DEGREES

instance (lat lng : ℚ) (i j : Int) : Decidable (inCellRegion lat lng i j) := by
  unfold inCellRegion; infer_instance

/-- A position strictly inside a bounds rectangle. -/
def strictlyInside (lat lng : ℚ) (b : (ℚ × ℚ) × (ℚ × ℚ)) : Prop :=
  b.1.1 < lat ∧ lat < b.2.1 ∧ b.1.2 < lng ∧ lng < b.2.2

instance (lat lng : ℚ) (b : (ℚ × ℚ) × (ℚ × ℚ)) : Decidable (strictlyInside lat lng b) := by
  unfold strictlyInside; infer_instance

/-- A constant generator roll of 0.05 (spawns a value-1 token). -/
def luck005 : String → ℚ := fun _ => 1 / 20

/-- A constant generator roll of 0.10 (spawns a value-2 token). -/
def luck010 : String → ℚ := fun _ => 1 / 10

/-- A constant generator roll of 0.20 (spawns nothing). -/
def luck020 : String → ℚ := fun _ => 1 / 5

/-- A state holding a value-1 token, player at the real-grid origin. -/
def sHeld1 : GameState := ⟨[], some 1, 0, 0, .wasd⟩

/-- A state holding a value-25 token with a matching override at cell
(0, 0), player at the real-grid origin. -/
def sHeld25 : GameState := ⟨[(key 0 0, some 25)], some 25, 0, 0, .wasd⟩

/-- An empty-handed state with an override at cell (0, 0). -/
def sOverride7 : GameState := ⟨[(key 0 0, some 7)], none, 0, 0, .wasd⟩

/-- A storage with nothing persisted. -/
def storeEmpty : String → Option String := fun _ => none

/-- A storage whose override-store field is present but not valid JSON. -/
def storeBadWorld : String → Option String :=
  fun k => if k = LS_WORLD then some ("\x7b") else none

/-! ## Helper lemmas: decimal digits and key injectivity -/

theorem digitChar_toNat (d : Nat) (h : d < 10) : (digitChar d).toNat = 48 + d := by
  interval_cases d <;> rfl

theorem natDigitsF_val (fuel : Nat) :
    ∀ n, n < fuel → valDigits (natDigitsF fuel n) = n := by
  induction fuel with
  | zero => intro n h; omega
  | succ f ih =>
    intro n h
    rw [natDigitsF]
    by_cases h10 : n < 10
    · rw [if_pos h10]
      simp [valDigits, digitChar_toNat n h10]
    · rw [if_neg h10]
      have hd : n / 10 < f := by
        have := Nat.div_lt_self (n := n) (by omega) (show 1 < 10 by omega)
        omega
      have hv := ih (n / 10) hd
      rw [valDigits] at hv ⊢
      rw [List.foldl_append, hv]
      simp [digitChar_toNat (n % 10) (by omega)]
      omega

theorem natDigitsF_mem (fuel : Nat) :
    ∀ n, n < fuel → ∀ c ∈ natDigitsF fuel n, 48 ≤ c.toNat ∧ c.toNat ≤ 57 := by
  induction fuel with
  | zero => intro n h; omega
  | succ f ih =>
    intro n h c hc
    rw [natDigitsF] at hc
    by_cases h10 : n < 10
    · rw [if_pos h10] at hc
      simp at hc
      subst hc
      rw [digitChar_toNat n h10]
      omega
    · rw [if_neg h10] at hc
      have hd : n / 10 < f := by
        have := Nat.div_lt_self (n := n) (by omega) (show 1 < 10 by omega)
        omega
      rcases List.mem_append.mp hc with h1 | h1
      · exact ih (n / 10) hd c h1
      · simp at h1
        subst h1
        rw [digitChar_toNat (n % 10) (by omega)]
        omega

theorem natDigits_val (n : Nat) : valDigits (natDigits n) = n :=
  natDigitsF_val (n + 1) n (Nat.lt_succ_self n)

theorem natDigits_mem (n : Nat) : ∀ c ∈ natDigits n, 48 ≤ c.toNat ∧ c.toNat ≤ 57 :=
  natDigitsF_mem (n + 1) n (Nat.lt_succ_self n)

theorem natDigits_inj {n m : Nat} (h : natDigits n = natDigits m) : n = m := by
  have h1 := natDigits_val n
  rw [h, natDigits_val] at h1
  omega

theorem intRepr_not_comma (i : Int) : ∀ c ∈ intRepr i, c ≠ Char.ofNat 44 := by
  intro c hc
  unfold intRepr at hc
  intro hcontra
  subst hcontra
  split_ifs at hc
  · rcases List.mem_cons.mp hc with h1 | h1
    · exact absurd (congrArg Char.toNat h1) (by decide)
    · have := natDigits_mem _ _ h1
      revert this
      decide
  · have := natDigits_mem _ _ hc
    revert this
    decide

theorem intRepr_inj {i j : Int} (h : intRepr i = intRepr j) : i = j := by
  unfold intRepr at h
  split_ifs at h with hi hj hj
  · rw [List.cons_eq_cons] at h
    have := natDigits_inj h.2
    omega
  · exfalso
    have hm : Char.ofNat 45 ∈ natDigits j.toNat := by
      rw [← h]; exact List.mem_cons_self _ _
    have := natDigits_mem _ _ hm
    revert this
    decide
  · exfalso
    have hm : Char.ofNat 45 ∈ natDigits i.toNat := by
      rw [h]; exact List.mem_cons_self _ _
    have := natDigits_mem _ _ hm
    revert this
    decide
  · have := natDigits_inj h
    omega

theorem append_sep_cancel (sep : Char) :
    ∀ (xs xs1 ys ys1 : List Char),
      (∀ c ∈ xs, c ≠ sep) → (∀ c ∈ xs1, c ≠ sep) →
      xs ++ sep :: ys = xs1 ++ sep :: ys1 → xs = xs1 ∧ ys = ys1 := by
  intro xs
  induction xs with
  | nil =>
    intro xs1 ys ys1 _ h1 he
    cases xs1 with
    | nil => simpa using he
    | cons b t =>
      exfalso
      rw [List.nil_append, List.cons_append, List.cons_eq_cons] at he
      exact h1 b (List.mem_cons_self _ _) he.1.symm
  | cons a t ih =>
    intro xs1 ys ys1 h0 h1 he
    cases xs1 with
    | nil =>
      exfalso
      rw [List.nil_append, List.cons_append, List.cons_eq_cons] at he
      exact h0 a (List.mem_cons_self _ _) he.1
    | cons b t1 =>
      rw [List.cons_append, List.cons_append, List.cons_eq_cons] at he
      have hrec := ih t1 ys ys1
        (fun c hc => h0 c (List.mem_cons_of_mem _ hc))
        (fun c hc => h1 c (List.mem_cons_of_mem _ hc)) he.2
      exact ⟨by rw [he.1, hrec.1], hrec.2⟩

theorem key_inj {i j i1 j1 : Int} (h : key i j = key i1 j1) : i = i1 ∧ j = j1 := by
  unfold key at h
  have h2 : intRepr i ++ Char.ofNat 44 :: intRepr j =
      intRepr i1 ++ Char.ofNat 44 :: intRepr j1 := congrArg String.data h
  obtain ⟨ha, hb⟩ := append_sep_cancel (Char.ofNat 44) _ _ _ _
    (intRepr_not_comma i) (intRepr_not_comma i1) h2
  exact ⟨intRepr_inj ha, intRepr_inj hb⟩

theorem key_ne {i j i1 j1 : Int} (h : (i, j) ≠ (i1, j1)) : key i j ≠ key i1 j1 := by
  intro hk
  obtain ⟨h1, h2⟩ := key_inj hk
  exact h (by rw [h1, h2])

/-! ## Helper lemmas: the JS Map model -/

theorem mapGet_set_self (m : CellMap) (k : String) (v : Option Nat) :
    mapGet? (mapSet m k v) k = some v := by
  induction m with
  | nil => simp [mapSet, mapGet?]
  | cons e rest ih =>
    obtain ⟨k1, v1⟩ := e
    by_cases hk : k1 = k
    · simp [mapSet, hk, mapGet?]
    · simp [mapSet, hk, mapGet?, ih]

theorem mapGet_set_ne (m : CellMap) (k k1 : String) (v : Option Nat) (h : k1 ≠ k) :
    mapGet? (mapSet m k v) k1 = mapGet? m k1 := by
  induction m with
  | nil =>
    simp only [mapSet, mapGet?]
    rw [if_neg (Ne.symm h)]
  | cons e rest ih =>
    obtain ⟨k2, v2⟩ := e
    by_cases hk : k2 = k
    · subst hk
      simp only [mapSet, if_pos rfl, mapGet?]
      rw [if_neg (Ne.symm h), if_neg (Ne.symm h)]
    · simp only [mapSet, if_neg hk, mapGet?]
      by_cases hk1 : k2 = k1
      · rw [if_pos hk1, if_pos hk1]
      · rw [if_neg hk1, if_neg hk1]
        exact ih

theorem mapHas_set (m : CellMap) (k k1 : String) (v : Option Nat)
    (h : mapHas m k1 = true) : mapHas (mapSet m k v) k1 = true := by
  by_cases hk : k1 = k
  · subst hk
    simp [mapHas, mapGet_set_self]
  · rw [mapHas, mapGet_set_ne m k k1 v hk]
    exact h

/-! ## Helper lemmas: the interaction branches -/

theorem click_far (luck : String → ℚ) (s : GameState) (i j : Int)
    (h : isCellNearby s i j = false) : handleCellClick luck s i j = (s, []) := by
  unfold handleCellClick
  rw [h]
  simp

theorem latLng_origin : latLngToRealCell 0 0 = (0, 0) := by
  unfold latLngToRealCell TILE_DEGREES
  norm_num

theorem held_next (luck : String → ℚ) (s : GameState) (i j : Int) (v : Nat)
    (h : s.held = some v) :
    (handleCellClick luck s i j).1.held = some v ∨
    (handleCellClick luck s i j).1.held = none ∨
    (handleCellClick luck s i j).1.held = some (2 * v) := by
  unfold handleCellClick
  by_cases hnear : isCellNearby s i j = true
  · rw [hnear]
    rcases htv : getCellToken luck s.world i j with _ | t
    · rw [h]
      simp
    · rw [h]
      by_cases ht : t = v
      · subst ht
        simp [Nat.mul_comm]
      · simp [ht, h]
  · rw [Bool.not_eq_true] at hnear
    rw [hnear]
    simp [h]

/-! ## Claim theorems -/

/-- C1: if the player holds a token of value V, the target cell's current
value is V, and the target cell is in interaction range, then after
`handleCellClick` (the `attemptInteraction` event) the held token is 2·V
and the target cell is empty. -/
theorem merge_correct (luck : String → ℚ) (s : GameState) (i j : Int) (v : Nat)
    (hheld : s.held = some v)
    (hcell : getCellToken luck s.world i j = some v)
    (hnear : isCellNearby s i j = true) :
    (handleCellClick luck s i j).1.held = some (2 * v) ∧
    getCellToken luck ((handleCellClick luck s i j).1).world i j = none := by
  unfold handleCellClick
  rw [hnear, hcell, hheld]
  simp only [if_true, if_pos rfl]
  constructor
  · simp [Nat.mul_comm]
  · unfold getCellToken
    rw [mapGet_set_self]

/-- Witness for C1: a concrete merge of two value-1 tokens at cell (2, 2)
with the player at the origin yields held value 2 and an empty cell. -/
theorem merge_correct_witness :
    (handleCellClick luck005 sHeld1 2 2).1.held = some (2 * 1) ∧
    getCellToken luck005 ((handleCellClick luck005 sHeld1 2 2).1).world 2 2 = none :=
  merge_correct luck005 sHeld1 2 2 1 rfl
    (by norm_num [getCellToken, mapGet?, luck005, sHeld1])
    (by simp only [isCellNearby, sHeld1, latLng_origin]; decide)

/-- C2: the held-token register is an `Option`, so it holds nothing or
exactly one value; and after any event sequence from the initial state, a
state holding value V can only keep V, become empty (place), or become
2·V (merge) on the next event — no interaction replaces a held token by
picking up a different one, since the pickup branch requires the held slot
to be empty. -/
theorem single_slot_invariant (luck : String → ℚ) (evs : List Event) (e : Event)
    (v : Nat) (h : (runEvents luck initialState evs).held = some v) :
    (stepEv luck (runEvents luck initialState evs) e).held = some v ∨
    (stepEv luck (runEvents luck initialState evs) e).held = none ∨
    (stepEv luck (runEvents luck initialState evs) e).held = some (2 * v) := by
  cases e with
  | click i j => exact held_next luck _ i j v h
  | move k => cases k <;> exact Or.inl h
  | locate lat lng => exact Or.inl h
  | redraw => exact Or.inl h
  | toggleMode => exact Or.inl h

/-- Witness for C2: after locating the player at the origin and picking up
the value-1 token at cell (0, 0), a second click on the now-empty cell
places the token: the held slot becomes empty, never a different token. -/
theorem single_slot_invariant_witness :
    (stepEv luck005 (runEvents luck005 initialState [.locate 0 0, .click 0 0])
        (.click 0 0)).held = some 1 ∨
    (stepEv luck005 (runEvents luck005 initialState [.locate 0 0, .click 0 0])
        (.click 0 0)).held = none ∨
    (stepEv luck005 (runEvents luck005 initialState [.locate 0 0, .click 0 0])
        (.click 0 0)).held = some (2 * 1) :=
  single_slot_invariant luck005 [.locate 0 0, .click 0 0] (.click 0 0) 1
    (by simp only [runEvents, List.foldl, stepEv, handleCellClick, initialState,
          isCellNearby, latLng_origin]
        norm_num [getCellToken, mapGet?, luck005, key])

/-- C5: a click on a target whose Chebyshev distance (the maximum of the
per-axis absolute cell differences) from the player's current cell exceeds
the interaction radius 3 leaves the whole state unchanged and emits
nothing, whatever the cell contents; the distance is recomputed from the
state's player position on every attempt (the theorem quantifies over the
current state). -/
theorem range_enforcement (luck : String → ℚ) (s : GameState) (i j : Int)
    (h : INTERACT_RANGE <
      max ((latLngToRealCell s.playerLat s.playerLng).1 - i).natAbs
          ((latLngToRealCell s.playerLat s.playerLng).2 - j).natAbs) :
    handleCellClick luck s i j = (s, []) := by
  apply click_far
  rw [Bool.eq_false_iff]
  intro htrue
  rw [isCellNearby, Bool.and_eq_true, decide_eq_true_eq, decide_eq_true_eq] at htrue
  rcases lt_max_iff.mp h with h1 | h1
  · exact absurd htrue.1 (by omega)
  · exact absurd htrue.2 (by omega)

/-- Witness for C5: with the player at the origin, a click on cell (10, 0)
(Chebyshev distance 10) changes nothing in the state `sHeld25`. -/
theorem range_enforcement_witness :
    handleCellClick luck005 sHeld25 10 0 = (sHeld25, []) :=
  range_enforcement luck005 sHeld25 10 0
    (by simp only [sHeld25, latLng_origin]; decide)

/-- C10: the canonical key encoding i,j is injective on integer pairs, so
distinct cells never alias the same store entry: a `set` on one cell (a
`mapSet` under its key) never changes what `getCellToken` returns for
another cell. -/
theorem key_distinct_cells (i j i1 j1 : Int) (h : (i, j) ≠ (i1, j1)) :
    key i j ≠ key i1 j1 ∧
    ∀ (luck : String → ℚ) (w : CellMap) (v : Option Nat),
      getCellToken luck (mapSet w (key i1 j1) v) i j = getCellToken luck w i j := by
  refine ⟨key_ne h, ?_⟩
  intro luck w v
  unfold getCellToken
  rw [mapGet_set_ne w (key i1 j1) (key i j) v (key_ne h)]

/-- Witness for C10: cells (0, 0) and (0, 1) have different keys, and
overriding (0, 1) in the empty store leaves the generated value of (0, 0)
unchanged. -/
theorem key_distinct_cells_witness :
    key 0 0 ≠ key 0 1 ∧
    ∀ (luck : String → ℚ) (w : CellMap) (v : Option Nat),
      getCellToken luck (mapSet w (key 0 1) v) 0 0 = getCellToken luck w 0 0 :=
  key_distinct_cells 0 0 0 1 (by decide)

/-! ## Helper lemmas: what a click does to other cells -/

theorem click_world_cases (luck : String → ℚ) (s : GameState) (i j : Int) :
    ((handleCellClick luck s i j).1).world = s.world ∨
    ∃ v, ((handleCellClick luck s i j).1).world = mapSet s.world (key i j) v := by
  unfold handleCellClick
  by_cases hnear : isCellNearby s i j = true
  · rw [hnear]
    cases htv : getCellToken luck s.world i j with
    | none =>
      cases hh : s.held with
      | none => simp
      | some v => right; exact ⟨some v, by simp⟩
    | some t =>
      cases hh : s.held with
      | none => right; exact ⟨none, by simp⟩
      | some v =>
        by_cases ht : t = v
        · right; exact ⟨none, by simp [ht]⟩
        · left; simp [ht]
  · rw [Bool.not_eq_true] at hnear
    rw [hnear]
    simp

theorem stepEv_world_key (luck : String → ℚ) (st : GameState) (e : Event)
    (i j : Int) (he : ∀ i1 j1, e = .click i1 j1 → (i1, j1) ≠ (i, j)) :
    mapGet? (stepEv luck st e).world (key i j) = mapGet? st.world (key i j) := by
  cases e with
  | click i1 j1 =>
    have hne := he i1 j1 rfl
    rcases click_world_cases luck st i1 j1 with hw | ⟨v, hw⟩
    · rw [stepEv, hw]
    · rw [stepEv, hw, mapGet_set_ne _ _ _ _ (key_ne (Ne.symm hne))]
  | move k => cases k <;> rfl
  | locate lat lng => rfl
  | redraw => rfl
  | toggleMode => rfl

theorem runEvents_world_key (luck : String → ℚ) (i j : Int) (v : Option Nat) :
    ∀ (evs : List Event) (st : GameState),
      (∀ e ∈ evs, ∀ i1 j1, e = Event.click i1 j1 → (i1, j1) ≠ (i, j)) →
      mapGet? st.world (key i j) = some v →
      mapGet? (runEvents luck st evs).world (key i j) = some v := by
  intro evs
  induction evs with
  | nil => intro st _ h; exact h
  | cons e rest ih =>
    intro st hevs h
    rw [runEvents, List.foldl_cons]
    have h1 := stepEv_world_key luck st e i j (hevs e (List.mem_cons_self _ _))
    exact ih (stepEv luck st e)
      (fun e1 he1 => hevs e1 (List.mem_cons_of_mem _ he1)) (by rw [h1]; exact h)

/-- C3: after recording an override V (possibly the empty value) for cell
(i, j), any sequence of further events whose clicks target other cells
(and so never call `set` for this cell) leaves `getCellToken` returning V,
regardless of what the generator would produce for the cell. -/
theorem override_precedence (luck : String → ℚ) (s : GameState) (i j : Int)
    (v : Option Nat) (evs : List Event)
    (hevs : ∀ e ∈ evs, ∀ i1 j1, e = Event.click i1 j1 → (i1, j1) ≠ (i, j)) :
    getCellToken luck
      (runEvents luck { s with world := mapSet s.world (key i j) v } evs).world
      i j = v := by
  have hget := runEvents_world_key luck i j v evs
    { s with world := mapSet s.world (key i j) v } hevs
    (by rw [mapGet_set_self])
  unfold getCellToken
  rw [hget]

/-- Witness for C3: override cell (0, 0) with value 7, then click (5, 5),
move, redraw; the generator (roll 0.20, which would yield an empty cell)
is still shadowed by the override. -/
theorem override_precedence_witness :
    getCellToken luck020
      (runEvents luck020
        { (⟨[], none, 0, 0, .wasd⟩ : GameState) with
            world := mapSet [] (key 0 0) (some 7) }
        [.click 5 5, .move .w, .redraw]).world 0 0 = some 7 :=
  override_precedence luck020 ⟨[], none, 0, 0, .wasd⟩ 0 0 (some 7)
    [.click 5 5, .move .w, .redraw]
    (by rintro e he i1 j1 rfl
        simp only [List.mem_cons, List.not_mem_nil, or_false] at he
        rcases he with he | he
        · obtain ⟨h5, h6⟩ := Event.click.inj he
          subst h5; subst h6
          decide
        · exact absurd he (by simp))

/-- C4: for a cell with no recorded override and generator roll r, the cell
spawns a token exactly when r < 0.15; the token has value 1 exactly when
r < 0.075, value 2 exactly when 0.075 ≤ r < 0.15, and the cell is empty
exactly when r ≥ 0.15. -/
theorem spawn_rule (luck : String → ℚ) (w : CellMap) (i j : Int)
    (hno : mapGet? w (key i j) = none) :
    ((getCellToken luck w i j).isSome ↔ luck (key i j) < 15 / 100) ∧
    (getCellToken luck w i j = some 1 ↔ luck (key i j) < 75 / 1000) ∧
    (getCellToken luck w i j = some 2 ↔
      75 / 1000 ≤ luck (key i j) ∧ luck (key i j) < 15 / 100) ∧
    (getCellToken luck w i j = none ↔ 15 / 100 ≤ luck (key i j)) := by
  unfold getCellToken
  rw [hno]
  by_cases h1 : luck (key i j) < 75 / 1000
  · have h2 : luck (key i j) < 15 / 100 := lt_trans h1 (by norm_num)
    rw [if_pos h2, if_pos h1]
    refine ⟨by simp [h2], by simp [h1], ?_, ?_⟩
    · simp only [Option.some.injEq]
      constructor
      · intro h12; omega
      · rintro ⟨ha, _⟩; linarith
    · simp only []
      constructor
      · intro hc; exact absurd hc (by simp)
      · intro hc; linarith
  · by_cases h2 : luck (key i j) < 15 / 100
    · rw [if_pos h2, if_neg h1]
      refine ⟨by simp [h2], ?_, ?_, ?_⟩
      · simp only [Option.some.injEq]
        constructor
        · intro h12; omega
        · intro hc; exact absurd hc h1
      · simp only [Option.some.injEq]
        constructor
        · intro _; exact ⟨le_of_not_lt h1, h2⟩
        · intro _; trivial
      · constructor
        · intro hc; exact absurd hc (by simp)
        · intro hc; linarith
    · rw [if_neg h2]
      refine ⟨by simp [h2], ?_, ?_, by simp [le_of_not_lt h2]⟩
      · constructor
        · intro hc; exact absurd hc (by simp)
        · intro hc; linarith
      · constructor
        · intro hc; exact absurd hc (by simp)
        · rintro ⟨_, hb⟩; exact absurd hb h2

/-- Witness for C4: the spec's three stub rolls — 0.05 gives a value-1
token, 0.10 gives a value-2 token, 0.20 gives an empty cell. -/
theorem spawn_rule_witness :
    getCellToken luck005 [] 0 0 = some 1 ∧
    getCellToken luck010 [] 0 0 = some 2 ∧
    getCellToken luck020 [] 0 0 = none :=
  ⟨(spawn_rule luck005 [] 0 0 rfl).2.1.mpr (by norm_num [luck005]),
   (spawn_rule luck010 [] 0 0 rfl).2.2.1.mpr (by constructor <;> norm_num [luck010]),
   (spawn_rule luck020 [] 0 0 rfl).2.2.2.mpr (by norm_num [luck020])⟩

/-- C6: no core operation (click, movement, redraw, mode toggle — and the
read-only `getCellToken`) ever removes an entry from the override store:
an existing key survives every event; only the external New Game reset
clears the whole store at once. -/
theorem store_entries_persist :
    (∀ (luck : String → ℚ) (s : GameState) (e : Event) (k : String),
      mapHas s.world k = true → mapHas (stepEv luck s e).world k = true) ∧
    (∀ s : GameState, (newGame s).world = []) := by
  constructor
  · intro luck s e k h
    cases e with
    | click i j =>
      rcases click_world_cases luck s i j with hw | ⟨v, hw⟩
      · rw [stepEv, hw]; exact h
      · rw [stepEv, hw]; exact mapHas_set _ _ _ _ h
    | move mk => cases mk <;> exact h
    | locate lat lng => exact h
    | redraw => exact h
    | toggleMode => exact h
  · intro s; rfl

/-- Witness for C6: the override recorded at cell (0, 0) still has an entry
after a click on that very cell (the click overwrites, never deletes). -/
theorem store_entries_persist_witness :
    mapHas (stepEv luck005 sOverride7 (.click 0 0)).world (key 0 0) = true :=
  store_entries_persist.1 luck005 sOverride7 (.click 0 0) (key 0 0) (by rfl)


theorem click_alerts (luck : String → ℚ) (s : GameState) (i j : Int) :
    (handleCellClick luck s i j).2 =
      if (handleCellClick luck s i j).1.held = s.held then []
      else checkWin ((handleCellClick luck s i j).1.held) := by
  unfold handleCellClick
  by_cases hnear : isCellNearby s i j = true
  · rw [hnear]
    cases htv : getCellToken luck s.world i j with
    | none =>
      cases hh : s.held with
      | none => simp [hh]
      | some h0 => simp [checkWin]
    | some t =>
      cases hh : s.held with
      | none => simp [checkWin]
      | some h0 =>
        by_cases ht : t = h0
        · subst ht
          simp only [if_pos rfl]
          by_cases h0eq : t * 2 = t
          · have ht0 : t = 0 := by omega
            subst ht0
            simp [checkWin]
          · simp [checkWin, h0eq]
        · simp [ht, hh]
  · rw [Bool.not_eq_true] at hnear
    rw [hnear]
    simp

/-- C7: the win check runs exactly with every mutation of the held token
(each mutating click branch ends in `updateInventoryUI`, which calls
`checkWin` on the new held value): a click emits at most one alert; a
click that leaves the held value unchanged emits none (so an already-met
threshold does not re-notify in a loop); a click that changes the held
value to some v ≥ 50 emits exactly one alert; one whose resulting value is
below 50 emits none; and movement never mutates the held token. The alert
is a pure output alongside the state transition, so it blocks nothing. -/
theorem win_check_per_event (luck : String → ℚ) (s : GameState) (i j : Int) :
    (handleCellClick luck s i j).2.length ≤ 1 ∧
    ((handleCellClick luck s i j).1.held = s.held →
      (handleCellClick luck s i j).2 = []) ∧
    (∀ v, (handleCellClick luck s i j).1.held = some v → 50 ≤ v →
      s.held ≠ (handleCellClick luck s i j).1.held →
      (handleCellClick luck s i j).2.length = 1) ∧
    (∀ v, (handleCellClick luck s i j).1.held = some v → v < 50 →
      (handleCellClick luck s i j).2 = []) ∧
    (∀ k, (moveStep s k).held = s.held) := by
  have ha := click_alerts luck s i j
  have hmove : ∀ k, (moveStep s k).held = s.held := by
    intro k; cases k <;> rfl
  refine ⟨?_, ?_, ?_, ?_, hmove⟩
  · rw [ha]
    split
    · simp
    · cases h1 : (handleCellClick luck s i j).1.held with
      | none => simp [checkWin]
      | some v =>
        simp only [checkWin]
        split <;> simp
  · intro he
    rw [ha, if_pos he]
  · intro v hv h50 hne
    rw [ha, if_neg (Ne.symm hne), hv]
    simp [checkWin, h50]
  · intro v hv h50
    rw [ha]
    split
    · rfl
    · rw [hv]
      simp [checkWin, Nat.not_le.mpr h50]

/-- Witness for C7: merging two value-25 tokens crosses the threshold
(held becomes 50) and emits exactly one win alert. -/
theorem win_check_per_event_witness :
    (handleCellClick luck005 sHeld25 0 0).2.length = 1 :=
  (win_check_per_event luck005 sHeld25 0 0).2.2.1 50
    (by norm_num [handleCellClick, isCellNearby, sHeld25, latLng_origin,
          getCellToken, mapGet?, checkWin])
    (by norm_num)
    (by norm_num [handleCellClick, isCellNearby, sHeld25, latLng_origin,
          getCellToken, mapGet?, checkWin])

theorem loadField_none (store : String → Option String) (k : String)
    (h : store k = none) : loadField store k = Except.ok none := by
  unfold loadField
  rw [h]

/-- C8 counterexample: the claim says malformed persisted data silently
falls back to defaults and never raises a fatal error, but `loadGame` has
no try/catch: with the world field persisted as the unparseable string
consisting of a single opening brace, `JSON.parse` throws and the load
fails instead of falling back. -/
theorem loadGame_malformed_throws : loadGame storeBadWorld = Except.error () := by
  rfl

/-- C8 (amended): a MISSING persisted field silently falls back to its
default (empty store, no held token, origin position, default wasd mode) —
whenever the load succeeds, every absent field carries its default, and a
fully absent storage loads to exactly the defaults; but a present,
unparseable field makes the load throw rather than fall back. -/
theorem loadGame_defaults (store : String → Option String) :
    (∀ r, loadGame store = Except.ok r →
      ((store LS_WORLD = none → r.worldEntries = []) ∧
       (store LS_PLAYER = none → r.playerJson = none) ∧
       (store LS_HELD = none → r.heldJson = Json.jnull) ∧
       (store LS_MODE = none → r.mode = MoveMode.wasd))) ∧
    loadGame storeEmpty = Except.ok ⟨[], none, Json.jnull, MoveMode.wasd⟩ := by
  constructor
  · intro r hr
    unfold loadGame at hr
    split at hr
    · exact absurd hr (by simp)
    next wj hw =>
      split at hr
      · exact absurd hr (by simp)
      next w hwe =>
        split at hr
        · exact absurd hr (by simp)
        next p hp =>
          split at hr
          · exact absurd hr (by simp)
          next h1 hh =>
            obtain rfl : r = ⟨w, p, h1.getD Json.jnull, loadMode store⟩ :=
              (Except.ok.inj hr).symm
            refine ⟨?_, ?_, ?_, ?_⟩
            · intro hnone
              rw [loadField_none store _ hnone] at hw
              obtain rfl : wj = none := (Except.ok.inj hw).symm
              simpa using hwe.symm
            · intro hnone
              rw [loadField_none store _ hnone] at hp
              obtain rfl : p = none := (Except.ok.inj hp).symm
              rfl
            · intro hnone
              rw [loadField_none store _ hnone] at hh
              obtain rfl : h1 = none := (Except.ok.inj hh).symm
              rfl
            · intro hnone
              simp [loadMode, hnone]
  · rfl

/-- Witness for C8: the empty storage loads successfully to the default
state, whose override store is the empty map. -/
theorem loadGame_defaults_witness :
    loadGame storeEmpty = Except.ok ⟨[], none, Json.jnull, MoveMode.wasd⟩ ∧
    (⟨[], none, Json.jnull, MoveMode.wasd⟩ : LoadedState).worldEntries = [] :=
  ⟨(loadGame_defaults storeEmpty).2,
   ((loadGame_defaults storeEmpty).1 _ (loadGame_defaults storeEmpty).2).1 rfl⟩

theorem floor_tile_eq (x o : ℚ) (z : Int) :
    ⌊(x - o) / TILE_DEGREES⌋ = z ↔
      o + z * TILE_DEGREES ≤ x ∧ x < o + (z + 1) * TILE_DEGREES := by
  have hT : (0 : ℚ) < TILE_DEGREES := by norm_num [TILE_DEGREES]
  rw [Int.floor_eq_iff]
  constructor
  · rintro ⟨h1, h2⟩
    have ha := (le_div_iff₀ hT).mp h1
    have hb := (div_lt_iff₀ hT).mp h2
    constructor
    · linarith
    · push_cast at hb ⊢
      linarith
  · rintro ⟨h1, h2⟩
    constructor
    · rw [le_div_iff₀ hT]
      linarith
    · rw [div_lt_iff₀ hT]
      linarith

/-- C9: the cell mapping partitions the plane: a position lies in the
half-open cell-sized square of (i, j) exactly when `latLngToCell` sends it
there — so every position gets exactly one cell, two positions in the same
square get the same cell, and squares of distinct cells are disjoint; and
`cellToBounds` is the inverse region: a position strictly inside the
bounds of (i, j) maps back to (i, j). -/
theorem cell_partition (lat lng : ℚ) (i j : Int) :
    (latLngToCell lat lng = (i, j) ↔ inCellRegion lat lng i j) ∧
    (strictlyInside lat lng (cellToBounds i j) → latLngToCell lat lng = (i, j)) := by
  have hmain : latLngToCell lat lng = (i, j) ↔ inCellRegion lat lng i j := by
    rw [latLngToCell, Prod.mk.injEq, inCellRegion,
      floor_tile_eq lat VISUAL_ORIGIN_LAT i, floor_tile_eq lng VISUAL_ORIGIN_LNG j]
    constructor
    · rintro ⟨⟨a, b⟩, c, d⟩
      exact ⟨a, b, c, d⟩
    · rintro ⟨a, b, c, d⟩
      exact ⟨⟨a, b⟩, c, d⟩
  refine ⟨hmain, ?_⟩
  intro hs
  rw [strictlyInside, cellToBounds] at hs
  simp only [] at hs
  exact hmain.mpr ⟨le_of_lt hs.1, hs.2.1, le_of_lt hs.2.2.1, hs.2.2.2⟩

/-- Witness for C9: the position one half-tile north-east of the classroom
origin lies strictly inside the bounds of cell (0, 0) and maps back to
(0, 0). -/
theorem cell_partition_witness :
    latLngToCell (VISUAL_ORIGIN_LAT + 1 / 20000) (VISUAL_ORIGIN_LNG + 1 / 20000) = (0, 0) :=
  (cell_partition (VISUAL_ORIGIN_LAT + 1 / 20000) (VISUAL_ORIGIN_LNG + 1 / 20000) 0 0).2
    (by norm_num [strictlyInside, cellToBounds, TILE_DEGREES])
